import Mathlib

/-!
Shallow embedding of the WebGL2 particle-physics simulation
(`particle_system_wasm`): the double-buffered particle state store, the
spatial binning ("partitioning") pipeline, the draw-stage point-size
computation, initialization, and the per-frame orchestration found in
`src/graphics.rs`, `src/particle.rs` and `src/lib.rs`.

Real-valued GPU quantities (f32/f64) are embedded as exact rationals `ℚ`;
where a cast or the effect of a GPU program matters we abstract it as an
explicit function parameter rather than guessing rounding behaviour.
-/

namespace ParticleSystem

/- Compile-time constants from `graphics.rs` lines 29-42. -/

def PARTICLE_COUNT_SQRT : ℕ := 300

def PARTICLE_COUNT : ℕ := PARTICLE_COUNT_SQRT * PARTICLE_COUNT_SQRT

def DATA_TEXTURE_WIDTH : ℕ := PARTICLE_COUNT_SQRT

def DATA_TEXTURE_HEIGHT : ℕ := PARTICLE_COUNT_SQRT

def GRID_ROWS : ℕ := 128

def GRID_COLUMNS : ℕ := 128

def BIN_CAPACITY : ℕ := 4

/-- Source constant `PARTICLE_RADIUS: f32 = 0.00144675925`, embedded as the exact rational
written in the source. -/
def PARTICLE_RADIUS : ℚ := 144675925 / 100000000000

def PARTICLE_SCALE : ℚ := 1

/-- Source constant `PARTICLE_RADIUS_SCALED = radius * scale` (`graphics.rs` line 42). -/
def PARTICLE_RADIUS_SCALED : ℚ := PARTICLE_RADIUS * PARTICLE_SCALE

/- Constants from `particle.rs` lines 12-13. -/

def MIN_VELOCITY : ℚ := -(1 / 10)

def MAX_VELOCITY : ℚ := 1 / 10

/-! ## Particle generation (`particle.rs`) -/

/-- Record `Particle \x7b position, velocity \x7d`, both 2-d vectors of f32,
embedded as pairs of rationals. -/
structure Particle where
  position : ℚ × ℚ
  velocity : ℚ × ℚ
  deriving Repr, DecidableEq

/-- Function `range_random(min, max) = random() * (max - min) + min` where `rnd` is the
value returned by `js_sys::Math::random()` (a number in `[0, 1)`). -/
def range_random (rnd mn mx : ℚ) : ℚ :=
  rnd * (mx - mn) + mn

/-- Function `range_random_v2`: componentwise `range_random`, consuming two
random draws. -/
def range_random_v2 (r1 r2 : ℚ) (mn mx : ℚ × ℚ) : ℚ × ℚ :=
  (range_random r1 mn.1 mx.1, range_random r2 mn.2 mx.2)

/-- Function `generate_particles(cnt, min_pos, max_pos)`: one particle per index,
position drawn in `[min_pos, max_pos)`, velocity drawn in
`[MIN_VELOCITY, MAX_VELOCITY)`.  The stream of `Math.random()` results is
made explicit as `r : ℕ → ℚ`; particle `k` consumes draws
`4k, 4k+1, 4k+2, 4k+3` in source order. -/
def generate_particles (cnt : ℕ) (minPos maxPos : ℚ × ℚ) (r : ℕ → ℚ) :
    List Particle :=
  (List.range cnt).map fun k =>
    { position := range_random_v2 (r (4 * k)) (r (4 * k + 1)) minPos maxPos
      velocity := range_random_v2 (r (4 * k + 2)) (r (4 * k + 3))
        (MIN_VELOCITY, MIN_VELOCITY) (MAX_VELOCITY, MAX_VELOCITY) }

/-! ## Render state and parity (`graphics.rs` lines 154-169, 372-382) -/

/-- Record `RenderState` (`graphics.rs` line 154): per-frame mutable state shared
with the render callback.  `delta_time_ms` (an f64) is embedded as `ℚ`. -/
structure RenderState where
  delta_time_ms : ℚ
  particle_count : ℕ
  odd_frame : Bool
  deriving Repr, DecidableEq

/-- Constructor `RenderState::new` (`graphics.rs` line 162): zero delta time, given
particle count, `odd_frame` starts `true`. -/
def RenderState.new (particle_count : ℕ) : RenderState :=
  { delta_time_ms := 0, particle_count := particle_count, odd_frame := true }

/-- Method `Graphics::update` (`graphics.rs` lines 372-379): records the externally
supplied elapsed time and flips the frame parity, before
`update_uniforms` runs. -/
def Graphics.update (s : RenderState) (delta_time_ms : ℚ) : RenderState :=
  { s with delta_time_ms := delta_time_ms, odd_frame := !s.odd_frame }

/-- The `dt` uniform pushed to the Update program (`graphics.rs` lines
298-310): `(state.delta_time_ms / 1000.0) as f32`.  The f64→f32 cast is kept
abstract as `cast32`. -/
def dtUniformValue (cast32 : ℚ → ℚ) (s : RenderState) : ℚ :=
  cast32 (s.delta_time_ms / 1000)

/-- The two particle data textures (`TextureId::OldData` / `NewData`). -/
inductive DataTexture
  | OldData
  | NewData
  deriving Repr, DecidableEq

/-- The handle `old_data_texture` that `render_callback` binds for reading after swapping
the two handles when `odd_frame` (`graphics.rs` lines 399-419): the texture
read by the Draw, Partition and Update passes this frame. -/
def readTexture (s : RenderState) : DataTexture :=
  if s.odd_frame then DataTexture.NewData else DataTexture.OldData

/-- The handle `new_data_texture` after the same swap: attached to the Update pass's
framebuffer color attachment (`graphics.rs` lines 533-539), i.e. the texture
written this frame. -/
def writeTexture (s : RenderState) : DataTexture :=
  if s.odd_frame then DataTexture.OldData else DataTexture.NewData

/-- State seen by the render callback of frame `k` (0-indexed): the initial
`RenderState.new` after `k+1` calls to `Graphics::update` (each frame calls
`update` before `render`, `graphics.rs` lines 354-359). -/
def stateInFrame (dts : ℕ → ℚ) : ℕ → RenderState
  | 0 => Graphics.update (RenderState.new PARTICLE_COUNT) (dts 0)
  | k + 1 => Graphics.update (stateInFrame dts k) (dts (k + 1))

/-! ## Draw-stage point size (`graphics.rs` lines 443-452) -/

/-- Quantity `pixel_size = (1/width).min(1/height)` over the canvas pixel
dimensions. -/
def pixel_size (width height : ℕ) : ℚ :=
  min (1 / (width : ℚ)) (1 / (height : ℚ))

/-- The `point_size` uniform handed to the Draw program:
`PARTICLE_RADIUS_SCALED / pixel_size`. -/
def point_size (width height : ℕ) : ℚ :=
  PARTICLE_RADIUS_SCALED / pixel_size width height

/-! ## Partitioning loop (`graphics.rs` lines 458-526)

The binning section of `render_callback` binds the `Partition` framebuffer
with the intermediate `R32UI` surface as its color attachment and then runs
`for i in 0..BIN_CAPACITY { clear; set pass uniform; draw points; copy to
layer i }`.  The GL state the loop touches is the intermediate surface, the
`pass` uniform and the layered bin texture; the effect of one point draw of
the Partition program (`shaders/partition.*`, read from the bound particle
and bin textures) is kept abstract as `drawFx`: given the pass uniform, the
current bin layers and the surface being rendered into, it yields the new
contents of that surface. -/

/-- Grid cell coordinate: `(column, row)`. -/
abbrev Cell : Type := ℕ × ℕ

/-- GL state touched by the binning section: the intermediate per-cell
surface, the `pass` uniform of the Partition program, and the
`GRID_COLUMNS × GRID_ROWS × BIN_CAPACITY` bin texture (layer index first). -/
structure PartitionState where
  intermediate : Cell → ℕ
  passUniform : ℕ
  bins : ℕ → Cell → ℕ
  draws : List ℕ

/-- One iteration of the binning loop (`graphics.rs` lines 506-524):
`clear_bufferuiv` zeroes the intermediate surface, `uniform1ui` sets the
`pass` uniform to `i`, `draw_arrays(POINTS, 0, PARTICLE_COUNT)` renders all
particles into the intermediate surface (reading the bin texture), and
`copy_tex_sub_image_3d` copies the intermediate surface into layer `i` of
the bin texture. -/
def partitionPassStep (drawFx : ℕ → (ℕ → Cell → ℕ) → (Cell → ℕ) → Cell → ℕ)
    (s : PartitionState) (i : ℕ) : PartitionState :=
  let s1 : PartitionState := { s with intermediate := fun _ => 0 }
  let s2 : PartitionState := { s1 with passUniform := i }
  let s3 : PartitionState :=
    { s2 with
      intermediate := drawFx s2.passUniform s2.bins s2.intermediate
      draws := s2.draws ++ [PARTICLE_COUNT] }
  { s3 with
    bins := fun l c => if l = i then s3.intermediate c else s3.bins l c }

/-- The whole binning loop: `for i in 0..BIN_CAPACITY`. -/
def partitionLoop (drawFx : ℕ → (ℕ → Cell → ℕ) → (Cell → ℕ) → Cell → ℕ)
    (s : PartitionState) : PartitionState :=
  (List.range BIN_CAPACITY).foldl (partitionPassStep drawFx) s

/-- Bin layers as the spec describes the stage: `n` sequential passes, pass
`i` rendering all particles against a zero-cleared intermediate surface with
the pass uniform set to `i` and the bin layers produced by passes `0..i-1`
bound for reading, its result copied into layer `i`.  Layers not yet (or
never) written keep their previous contents. -/
def specBinLayers (drawFx : ℕ → (ℕ → Cell → ℕ) → (Cell → ℕ) → Cell → ℕ)
    (bins0 : ℕ → Cell → ℕ) : ℕ → ℕ → Cell → ℕ
  | 0 => bins0
  | n + 1 => fun l c =>
      if l = n then
        drawFx n (specBinLayers drawFx bins0 n) (fun _ => 0) c
      else specBinLayers drawFx bins0 n l c

/-! ## Frame command trace (`Graphics::frame`, `graphics.rs` lines 354-359)

`frame(delta_time_ms)` first calls `self.update(..)` — which flips the
frame parity — and then `render()`, whose callback runs the Draw pass, the
Partition (binning) pass and the Update pass in that textual order. -/

/-- Frame-level events, at the granularity of the three GPU passes plus the
parity flip. -/
inductive FrameEvent
  | flip
  | draw
  | partition
  | update
  deriving Repr, DecidableEq

/-- The events of one `Graphics::frame` call, in execution order: the parity
flip performed by `Graphics::update`, then the Draw, Partition and Update
passes of `render_callback`. -/
def frameEvents : List FrameEvent :=
  [FrameEvent.flip, FrameEvent.draw, FrameEvent.partition, FrameEvent.update]

/-- Trace of `n` consecutive frames. -/
def runTrace : ℕ → List FrameEvent
  | 0 => []
  | n + 1 => runTrace n ++ frameEvents

/-- The per-frame event block exactly as the spec writes the cycle:
`Draw → Partition → Update → flip`. -/
def specFrameEvents : List FrameEvent :=
  [FrameEvent.draw, FrameEvent.partition, FrameEvent.update, FrameEvent.flip]

/-- Trace of `n` frames of the spec's cycle. -/
def specRunTrace : ℕ → List FrameEvent
  | 0 => []
  | n + 1 => specRunTrace n ++ specFrameEvents

/-! ## Full graphics state, initialization and resize
(`graphics.rs` lines 176-352 and 575-580, `lib.rs` lines 97-104) -/

/-- Resources owned by a successfully initialized `Graphics` value, plus the
surface (canvas) pixel dimensions the Draw pass reads.  `oldData` is the
seeded particle texture, `newData` the second data texture, created with
`None` as its initial data and therefore zero-initialized. -/
structure GraphicsState where
  surfaceWidth : ℕ
  surfaceHeight : ℕ
  renderState : RenderState
  oldData : List Particle
  newData : ℕ → ℚ
  particleCount : ℕ
  gridColumns : ℕ
  gridRows : ℕ
  binCapacity : ℕ

/-- Resource contents produced by `Graphics::initialize_with_window`
(`graphics.rs` lines 176-352): particles generated with
`generate_particles(PARTICLE_COUNT, splat(-1.0), splat(1.0))`, the second
data texture zeroed, and the fixed grid constants. -/
def initialGraphicsState (w h : ℕ) (r : ℕ → ℚ) : GraphicsState :=
  let particles := generate_particles PARTICLE_COUNT (-1, -1) (1, 1) r
  { surfaceWidth := w
    surfaceHeight := h
    renderState := RenderState.new particles.length
    oldData := particles
    newData := fun _ => 0
    particleCount := particles.length
    gridColumns := GRID_COLUMNS
    gridRows := GRID_ROWS
    binCapacity := BIN_CAPACITY }

/-- Method `Graphics::on_resize` (`graphics.rs` lines 575-580): the only
effect is `gl.viewport(0, 0, new_width, new_height)` — the surface
dimensions consumed by the next Draw pass change, nothing else. -/
def Graphics.on_resize (s : GraphicsState) (newSize : ℕ × ℕ) : GraphicsState :=
  { s with surfaceWidth := newSize.1, surfaceHeight := newSize.2 }

/-- A sequence of resize notifications applied in order. -/
def resizeMany (s : GraphicsState) (events : List (ℕ × ℕ)) : GraphicsState :=
  events.foldl Graphics.on_resize s

/-- Outcome of each fallible step of startup, as an environment of booleans:
window creation (`lib.rs` line 98, a `Result`), the WebGL2 context and every
program/texture/framebuffer created inside `build_renderer_data`
(`graphics.rs` line 337, each created with `.unwrap()` in its callback), and
the `EXT_color_buffer_float` extension lookup (`graphics.rs` line 341). -/
structure InitEnv where
  windowOk : Bool
  contextOk : Bool
  drawProgramOk : Bool
  updateProgramOk : Bool
  partitionProgramOk : Bool
  oldDataTextureOk : Bool
  newDataTextureOk : Bool
  binsTextureOk : Bool
  intermediateTextureOk : Bool
  updateFramebufferOk : Bool
  partitionFramebufferOk : Bool
  floatExtensionOk : Bool
  deriving Repr, DecidableEq

/-- Call `render_data_builder.build_renderer_data().unwrap()` (`graphics.rs`
line 337): acquires the context, compiles and links the three programs and
creates the four textures and two framebuffers via their links; any failure
is an `unwrap` panic, embedded as `none`. -/
def build_renderer_data (env : InitEnv) (w h : ℕ) (r : ℕ → ℚ) :
    Option GraphicsState :=
  if !env.contextOk then none
  else if !env.drawProgramOk then none
  else if !env.updateProgramOk then none
  else if !env.partitionProgramOk then none
  else if !env.oldDataTextureOk then none
  else if !env.newDataTextureOk then none
  else if !env.intermediateTextureOk then none
  else if !env.binsTextureOk then none
  else if !env.updateFramebufferOk then none
  else if !env.partitionFramebufferOk then none
  else some (initialGraphicsState w h r)

/-- Method `Graphics::initialize_with_window` (`graphics.rs` lines 176-352):
builds the renderer data, then `gl.get_extension("EXT_color_buffer_float")
.unwrap()`; every failure aborts (embedded as `none`), no retry, and the
only success value carries the complete resource set. -/
def initialize_with_window (env : InitEnv) (w h : ℕ) (r : ℕ → ℚ) :
    Option GraphicsState :=
  match build_renderer_data env w h r with
  | none => none
  | some g => if !env.floatExtensionOk then none else some g

/-- Constructor `App::new` (`lib.rs` lines 97-104): creates the window (a
`Result`, surfaced with `expect` in `run`) and then
`Graphics::initialize_with_window`. -/
def App.new (env : InitEnv) (w h : ℕ) (r : ℕ → ℚ) : Option GraphicsState :=
  if !env.windowOk then none
  else initialize_with_window env w h r

/-- Shorthand for "every fallible startup step succeeded". -/
def InitEnv.allOk (env : InitEnv) : Prop :=
  env.windowOk = true ∧ env.contextOk = true ∧
    env.drawProgramOk = true ∧ env.updateProgramOk = true ∧
    env.partitionProgramOk = true ∧ env.oldDataTextureOk = true ∧
    env.newDataTextureOk = true ∧ env.binsTextureOk = true ∧
    env.intermediateTextureOk = true ∧ env.updateFramebufferOk = true ∧
    env.partitionFramebufferOk = true ∧ env.floatExtensionOk = true

instance (env : InitEnv) : Decidable env.allOk := by
  unfold InitEnv.allOk
  infer_instance

/-! ## The partitioning shader's selection discipline, from the spec

The fragment/vertex sources of the Partition program
(`src/shaders/partition.vert`, `src/shaders/partition.frag`) are referenced
by `include_str!` in `graphics.rs` but are not part of the available source
tree, so the per-pass slot-selection computation is modelled from the
spec here. -/

/-- Modelled from the spec: the bin store as built by the Partitioning
Stage, with the shader sources (`src/shaders/partition.*`) missing from the
tree.  Spec §4.2: pass `i` "determines per-particle whether it is the
occupant selected for slot `i` of its cell (implementation-defined
selection/tie-break rule)", and "each pass must observe which particles were
already claimed by earlier passes, to avoid placing the same particle into
more than one slot".  `candidateParticles` is therefore the set a pass may
choose from for cell `c`: particles of the population whose position maps to
`c` under the fixed cell function and which no earlier layer has already
claimed.  A slot holds `Option ℕ`, `none` being the empty-slot sentinel. -/
def candidateParticles (cell : ℕ → Cell) (pop : ℕ)
    (prev : List (Cell → Option ℕ)) (c : Cell) : List ℕ :=
  (List.range pop).filter fun p =>
    decide (cell p = c) && !(prev.any fun layer => decide (layer c = some p))

/-- Modelled from the spec: one partitioning pass fills slot `i` of every
cell by applying the implementation-defined selection rule `select` to the
candidates still available for that cell (spec §4.2, §9 open question: the
tie-break is implementation-defined, so it is an explicit parameter). -/
def specBinPass (select : Cell → List ℕ → Option ℕ) (cell : ℕ → Cell)
    (pop : ℕ) (prev : List (Cell → Option ℕ)) : Cell → Option ℕ :=
  fun c => select c (candidateParticles cell pop prev c)

/-- Modelled from the spec: the list of bin layers after `n` sequential
passes (spec §4.2: "bin construction is performed as `capacity` sequential
passes over the full particle population"). -/
def specBinning (select : Cell → List ℕ → Option ℕ) (cell : ℕ → Cell)
    (pop : ℕ) : ℕ → List (Cell → Option ℕ)
  | 0 => []
  | n + 1 =>
      let prev := specBinning select cell pop n
      prev ++ [specBinPass select cell pop prev]

/-- Layer produced by pass `i` (the element appended by `specBinning` at
step `i`). -/
def binLayerAt (select : Cell → List ℕ → Option ℕ) (cell : ℕ → Cell)
    (pop : ℕ) (i : ℕ) : Cell → Option ℕ :=
  specBinPass select cell pop (specBinning select cell pop i)

/-! ## Theorems -/

/-- C2: every frame has exactly one current (readable) and one next
(writable) particle buffer, selected by the single `odd_frame` parity bit;
the parity flips exactly once per frame; the buffer written by frame `k` is
the buffer read by frame `k+1`; and no frame reads and writes the same
buffer. -/
theorem buffer_parity_single_writer (dts : ℕ → ℚ) (k : ℕ) :
    readTexture (stateInFrame dts k) ≠ writeTexture (stateInFrame dts k) ∧
    (∀ t : DataTexture,
      t = readTexture (stateInFrame dts k) ∨
        t = writeTexture (stateInFrame dts k)) ∧
    (stateInFrame dts (k + 1)).odd_frame = !(stateInFrame dts k).odd_frame ∧
    readTexture (stateInFrame dts (k + 1)) =
      writeTexture (stateInFrame dts k) := by
  have hflip : stateInFrame dts (k + 1) =
      Graphics.update (stateInFrame dts k) (dts (k + 1)) := rfl
  refine ⟨?_, ?_, ?_, ?_⟩
  · cases h : (stateInFrame dts k).odd_frame <;>
      simp [readTexture, writeTexture, h]
  · intro t
    cases h : (stateInFrame dts k).odd_frame <;> cases t <;>
      simp [readTexture, writeTexture, h]
  · rw [hflip]; rfl
  · rw [hflip]
    cases h : (stateInFrame dts k).odd_frame <;>
      simp [readTexture, writeTexture, Graphics.update, h]

/-- C6: the `point_size` uniform handed to the Draw program equals the fixed
world-space radius divided by `min(1/width, 1/height)`; equivalently (for a
non-degenerate surface) the radius times the larger surface dimension. -/
theorem draw_point_size_formula (w h : ℕ) (hw : 0 < w) (hh : 0 < h) :
    point_size w h =
      PARTICLE_RADIUS_SCALED / min (1 / (w : ℚ)) (1 / (h : ℚ)) ∧
    point_size w h = PARTICLE_RADIUS_SCALED * max (w : ℚ) (h : ℚ) := by
  have hw' : (0 : ℚ) < (w : ℚ) := by exact_mod_cast hw
  have hh' : (0 : ℚ) < (h : ℚ) := by exact_mod_cast hh
  refine ⟨rfl, ?_⟩
  unfold point_size pixel_size
  rcases le_total (w : ℚ) (h : ℚ) with hwh | hwh
  · rw [min_eq_right (one_div_le_one_div_of_le hw' hwh), max_eq_right hwh,
      one_div, div_inv_eq_mul]
  · rw [min_eq_left (one_div_le_one_div_of_le hh' hwh), max_eq_left hwh,
      one_div, div_inv_eq_mul]

/-- Witness for `draw_point_size_formula` at the 800×600 surface. -/
theorem draw_point_size_formula_witness :
    (0 < 800 ∧ 0 < 600) ∧
    (point_size 800 600 =
        PARTICLE_RADIUS_SCALED / min (1 / (800 : ℚ)) (1 / (600 : ℚ)) ∧
      point_size 800 600 = PARTICLE_RADIUS_SCALED * max (800 : ℚ) 600) := by
  refine ⟨⟨by norm_num, by norm_num⟩, ?_⟩
  have := draw_point_size_formula 800 600 (by norm_num) (by norm_num)
  simpa using this

/-- C5 counterexample: resizing the surface from 800×600 to 400×300 does
NOT double the Draw Stage's computed point size — `min(1/w, 1/h)` doubles,
so the quotient `radius / min(1/w, 1/h)` halves. -/
theorem resize_point_size_not_doubled :
    point_size 400 300 ≠ 2 * point_size 800 600 := by
  norm_num [point_size, pixel_size, PARTICLE_RADIUS_SCALED, PARTICLE_RADIUS,
    PARTICLE_SCALE]

/-- C5 (amended): resizing the surface from 800×600 to 400×300 mid-run
halves the next Draw Stage's computed point size in pixels (the world-space
radius is fixed and `min(1/w, 1/h)` doubles, so the quotient halves), while
the simulation buffers and the particle count are unaffected by the
resize. -/
theorem resize_halves_point_size_simulation_unaffected :
    point_size 800 600 = 2 * point_size 400 300 ∧
    ∀ s : GraphicsState,
      (Graphics.on_resize s (400, 300)).renderState = s.renderState ∧
      (Graphics.on_resize s (400, 300)).oldData = s.oldData ∧
      (Graphics.on_resize s (400, 300)).newData = s.newData ∧
      (Graphics.on_resize s (400, 300)).particleCount = s.particleCount ∧
      (Graphics.on_resize s (400, 300)).surfaceWidth = 400 ∧
      (Graphics.on_resize s (400, 300)).surfaceHeight = 300 := by
  constructor
  · norm_num [point_size, pixel_size, PARTICLE_RADIUS_SCALED,
      PARTICLE_RADIUS, PARTICLE_SCALE]
  · intro s
    simp [Graphics.on_resize]

/-- C10: the `dt` uniform handed to the Update program in frame `k` is the
externally supplied elapsed time of that frame (milliseconds) divided by
1000 and cast to single precision — the integration step is in seconds. -/
theorem update_dt_uniform_is_seconds (cast32 : ℚ → ℚ) (dts : ℕ → ℚ)
    (k : ℕ) :
    dtUniformValue cast32 (stateInFrame dts k) = cast32 (dts k / 1000) := by
  cases k <;> rfl

/-- Helper: a resize event sequence only ever touches the surface
dimensions. -/
theorem resizeMany_preserves_fields (s : GraphicsState)
    (events : List (ℕ × ℕ)) :
    (resizeMany s events).renderState = s.renderState ∧
    (resizeMany s events).oldData = s.oldData ∧
    (resizeMany s events).newData = s.newData ∧
    (resizeMany s events).particleCount = s.particleCount ∧
    (resizeMany s events).gridColumns = s.gridColumns ∧
    (resizeMany s events).gridRows = s.gridRows ∧
    (resizeMany s events).binCapacity = s.binCapacity := by
  induction events generalizing s with
  | nil => exact ⟨rfl, rfl, rfl, rfl, rfl, rfl, rfl⟩
  | cons e rest ih =>
      simpa [resizeMany, Graphics.on_resize] using
        ih { s with surfaceWidth := e.1, surfaceHeight := e.2 }

/-- C8: any sequence of resize notifications leaves every simulation
resource of an initialized `Graphics` unchanged — the particle buffers, the
particle count, the grid geometry and the bin capacity keep their startup
values; only the surface dimensions consumed by the Draw Stage change. -/
theorem resize_leaves_simulation_resources_fixed (w h : ℕ) (r : ℕ → ℚ)
    (events : List (ℕ × ℕ)) :
    (resizeMany (initialGraphicsState w h r) events).renderState =
        (initialGraphicsState w h r).renderState ∧
    (resizeMany (initialGraphicsState w h r) events).oldData =
        generate_particles PARTICLE_COUNT (-1, -1) (1, 1) r ∧
    (resizeMany (initialGraphicsState w h r) events).newData =
        (initialGraphicsState w h r).newData ∧
    (resizeMany (initialGraphicsState w h r) events).particleCount =
        PARTICLE_COUNT ∧
    (resizeMany (initialGraphicsState w h r) events).gridColumns =
        GRID_COLUMNS ∧
    (resizeMany (initialGraphicsState w h r) events).gridRows = GRID_ROWS ∧
    (resizeMany (initialGraphicsState w h r) events).binCapacity =
        BIN_CAPACITY := by
  obtain ⟨h1, h2, h3, h4, h5, h6, h7⟩ :=
    resizeMany_preserves_fields (initialGraphicsState w h r) events
  have hcnt : (generate_particles PARTICLE_COUNT (-1, -1) (1, 1) r).length =
      PARTICLE_COUNT := by
    simp [generate_particles]
  refine ⟨h1, ?_, h3, ?_, ?_, ?_, ?_⟩
  · rw [h2]; simp [initialGraphicsState]
  · rw [h4]; simpa [initialGraphicsState] using hcnt
  · rw [h5]; simp [initialGraphicsState]
  · rw [h6]; simp [initialGraphicsState]
  · rw [h7]; simp [initialGraphicsState]

/-- C3 counterexample: within a single `Graphics::frame` call, the pass
order is not `Draw, Partition, Update, flip` — the parity flip happens
first (`Graphics::update` runs before the render callback). -/
theorem frame_events_not_flip_last :
    runTrace 1 ≠
      [FrameEvent.draw, FrameEvent.partition, FrameEvent.update,
        FrameEvent.flip] := by
  decide

/-- C3 (amended): every frame executes the parity flip first and then the
three GPU passes in the fixed order Draw, Partition, Update, with no pass
omitted, reordered or repeated; consequently the trace of `n+1` frames is a
single initial flip followed by `n` repetitions of the spec's
`Draw → Partition → Update → flip` cycle and a final `Draw, Partition,
Update` (whose trailing flip is performed at the top of the following
frame). -/
theorem frame_cycle_flip_at_frame_start (n : ℕ) :
    runTrace (n + 1) =
      FrameEvent.flip ::
        (specRunTrace n ++
          [FrameEvent.draw, FrameEvent.partition, FrameEvent.update]) ∧
    runTrace (n + 1) = runTrace n ++
      [FrameEvent.flip, FrameEvent.draw, FrameEvent.partition,
        FrameEvent.update] := by
  refine ⟨?_, rfl⟩
  induction n with
  | zero => rfl
  | succ m ih =>
      show runTrace (m + 1) ++ frameEvents = _
      rw [ih]
      simp [specRunTrace, specFrameEvents, frameEvents]

/-- Helper: unrolling the binning fold over the first `n` pass indices. -/
theorem partitionFold_bins_draws
    (drawFx : ℕ → (ℕ → Cell → ℕ) → (Cell → ℕ) → Cell → ℕ)
    (s : PartitionState) (n : ℕ) :
    ((List.range n).foldl (partitionPassStep drawFx) s).bins =
        specBinLayers drawFx s.bins n ∧
    ((List.range n).foldl (partitionPassStep drawFx) s).draws =
        s.draws ++ List.replicate n PARTICLE_COUNT := by
  induction n with
  | zero => simp [specBinLayers]
  | succ m ih =>
      obtain ⟨ihb, ihd⟩ := ih
      rw [List.range_succ, List.foldl_append]
      constructor
      · funext l c
        simp only [List.foldl_cons, List.foldl_nil, partitionPassStep,
          specBinLayers, ihb]
      · simp only [List.foldl_cons, List.foldl_nil, partitionPassStep, ihd,
          List.append_assoc, List.replicate_succ']

/-- C1: the binning section of `render_callback` rebuilds the Bin Store by
exactly `BIN_CAPACITY = 4` sequential passes over the full particle
population: pass `i` starts from the zero-cleared intermediate surface, runs
with the pass uniform set to `i`, draws all `PARTICLE_COUNT` particles (one
draw call of the full population per pass, witnessed by the draw log), and
its result is copied into layer `i` of the Bin Store; pass `i+1` is computed
from the Bin Store that already contains the layers of passes `0..i`
(`specBinLayers` recursion), and layers beyond `BIN_CAPACITY` are never
touched. -/
theorem partition_four_sequential_passes
    (drawFx : ℕ → (ℕ → Cell → ℕ) → (Cell → ℕ) → Cell → ℕ)
    (s : PartitionState) :
    (partitionLoop drawFx s).bins = specBinLayers drawFx s.bins BIN_CAPACITY ∧
    (partitionLoop drawFx s).draws =
        s.draws ++ List.replicate BIN_CAPACITY PARTICLE_COUNT ∧
    BIN_CAPACITY = 4 ∧
    (∀ i, specBinLayers drawFx s.bins (i + 1) = fun l c =>
      if l = i then drawFx i (specBinLayers drawFx s.bins i) (fun _ => 0) c
      else specBinLayers drawFx s.bins i l c) ∧
    (∀ l c, BIN_CAPACITY ≤ l →
      specBinLayers drawFx s.bins BIN_CAPACITY l c = s.bins l c) := by
  obtain ⟨hb, hd⟩ := partitionFold_bins_draws drawFx s BIN_CAPACITY
  refine ⟨hb, hd, rfl, fun i => rfl, ?_⟩
  intro l c hl
  have hl4 : 4 ≤ l := hl
  have h0 : l ≠ 0 := by omega
  have h1 : l ≠ 1 := by omega
  have h2 : l ≠ 2 := by omega
  have h3 : l ≠ 3 := by omega
  show specBinLayers drawFx s.bins 4 l c = s.bins l c
  simp [specBinLayers, h0, h1, h2, h3]

/-- Environment in which every fallible startup step succeeds. -/
def envAllOk : InitEnv :=
  { windowOk := true, contextOk := true, drawProgramOk := true,
    updateProgramOk := true, partitionProgramOk := true,
    oldDataTextureOk := true, newDataTextureOk := true,
    binsTextureOk := true, intermediateTextureOk := true,
    updateFramebufferOk := true, partitionFramebufferOk := true,
    floatExtensionOk := true }

/-- Helper: `build_renderer_data` collapsed to a single success
condition. -/
theorem build_renderer_data_eq (env : InitEnv) (w h : ℕ) (r : ℕ → ℚ) :
    build_renderer_data env w h r =
      if env.contextOk && env.drawProgramOk && env.updateProgramOk &&
          env.partitionProgramOk && env.oldDataTextureOk &&
          env.newDataTextureOk && env.intermediateTextureOk &&
          env.binsTextureOk && env.updateFramebufferOk &&
          env.partitionFramebufferOk then
        some (initialGraphicsState w h r)
      else none := by
  unfold build_renderer_data
  cases env.contextOk <;> simp
  cases env.drawProgramOk <;> simp
  cases env.updateProgramOk <;> simp
  cases env.partitionProgramOk <;> simp
  cases env.oldDataTextureOk <;> simp
  cases env.newDataTextureOk <;> simp
  cases env.intermediateTextureOk <;> simp
  cases env.binsTextureOk <;> simp
  cases env.updateFramebufferOk <;> simp
  cases env.partitionFramebufferOk <;> simp

/-- Helper: `App::new` collapsed to a single success condition over every
fallible startup step. -/
theorem appNew_eq (env : InitEnv) (w h : ℕ) (r : ℕ → ℚ) :
    App.new env w h r =
      if env.windowOk && env.contextOk && env.drawProgramOk &&
          env.updateProgramOk && env.partitionProgramOk &&
          env.oldDataTextureOk && env.newDataTextureOk &&
          env.intermediateTextureOk && env.binsTextureOk &&
          env.updateFramebufferOk && env.partitionFramebufferOk &&
          env.floatExtensionOk then
        some (initialGraphicsState w h r)
      else none := by
  unfold App.new initialize_with_window
  rw [build_renderer_data_eq]
  cases env.windowOk <;> simp
  cases env.contextOk <;> simp
  cases env.drawProgramOk <;> simp
  cases env.updateProgramOk <;> simp
  cases env.partitionProgramOk <;> simp
  cases env.oldDataTextureOk <;> simp
  cases env.newDataTextureOk <;> simp
  cases env.intermediateTextureOk <;> simp
  cases env.binsTextureOk <;> simp
  cases env.updateFramebufferOk <;> simp
  cases env.partitionFramebufferOk <;> simp
  cases env.floatExtensionOk <;> simp

/-- C9: startup yields a usable handle exactly when every fallible
initialization step — window/context acquisition, compiling and linking the
three program stages, allocating the four textures and two framebuffers,
and the float-render extension lookup — succeeds; any failure aborts
startup (no handle), and the only success value carries the complete
resource set, so there is no retry and no partial/degraded mode. -/
theorem init_failure_aborts_startup (env : InitEnv) (w h : ℕ) (r : ℕ → ℚ) :
    ((App.new env w h r).isSome ↔ env.allOk) ∧
    ∀ g, App.new env w h r = some g → g = initialGraphicsState w h r := by
  rw [appNew_eq]
  have hall : env.allOk ↔
      (env.windowOk && env.contextOk && env.drawProgramOk &&
        env.updateProgramOk && env.partitionProgramOk &&
        env.oldDataTextureOk && env.newDataTextureOk &&
        env.intermediateTextureOk && env.binsTextureOk &&
        env.updateFramebufferOk && env.partitionFramebufferOk &&
        env.floatExtensionOk) = true := by
    simp only [InitEnv.allOk, Bool.and_eq_true, and_assoc]
    tauto
  constructor
  · rw [hall]
    split_ifs with hcond <;> simp [hcond]
  · intro g hg
    split_ifs at hg with hcond
    exact (Option.some_inj.mp hg).symm

/-- Witness for `init_failure_aborts_startup`: with every step succeeding,
startup returns the fully initialized state. -/
theorem init_failure_aborts_startup_witness :
    (App.new envAllOk 800 600 (fun _ => 0)).isSome ∧
    App.new envAllOk 800 600 (fun _ => 0) =
      some (initialGraphicsState 800 600 (fun _ => 0)) ∧
    initialGraphicsState 800 600 (fun _ => 0) =
      initialGraphicsState 800 600 (fun _ => 0) := by
  refine ⟨?_, rfl, ?_⟩
  · exact (init_failure_aborts_startup envAllOk 800 600 (fun _ => 0)).1.mpr
      (by decide)
  · exact (init_failure_aborts_startup envAllOk 800 600 (fun _ => 0)).2 _ rfl

/-- C7: the seeded particle buffer holds exactly
`PARTICLE_COUNT_SQRT ^ 2 = 300 ^ 2 = 90000` particles; with every
`Math.random()` draw in `[0, 1)`, every particle's position components lie
in the square `[-1, 1] × [-1, 1]` and every velocity component lies in
`[-0.1, 0.1]`; and the other (`NewData`) buffer starts zeroed. -/
theorem seeded_buffer_count_and_ranges (r : ℕ → ℚ)
    (hr : ∀ i, 0 ≤ r i ∧ r i < 1) :
    (generate_particles PARTICLE_COUNT (-1, -1) (1, 1) r).length =
        PARTICLE_COUNT_SQRT ^ 2 ∧
    PARTICLE_COUNT_SQRT ^ 2 = 90000 ∧
    (∀ p ∈ generate_particles PARTICLE_COUNT (-1, -1) (1, 1) r,
      (-1 ≤ p.position.1 ∧ p.position.1 ≤ 1) ∧
      (-1 ≤ p.position.2 ∧ p.position.2 ≤ 1) ∧
      (-(1 / 10) ≤ p.velocity.1 ∧ p.velocity.1 ≤ 1 / 10) ∧
      (-(1 / 10) ≤ p.velocity.2 ∧ p.velocity.2 ≤ 1 / 10)) ∧
    (∀ w h i, (initialGraphicsState w h r).newData i = 0) := by
  refine ⟨?_, by norm_num [PARTICLE_COUNT_SQRT], ?_, ?_⟩
  · simp [generate_particles, PARTICLE_COUNT, PARTICLE_COUNT_SQRT]
  · intro p hp
    simp only [generate_particles, List.mem_map, List.mem_range] at hp
    obtain ⟨k, -, rfl⟩ := hp
    obtain ⟨ha0, ha1⟩ := hr (4 * k)
    obtain ⟨hb0, hb1⟩ := hr (4 * k + 1)
    obtain ⟨hc0, hc1⟩ := hr (4 * k + 2)
    obtain ⟨hd0, hd1⟩ := hr (4 * k + 3)
    simp only [range_random_v2, range_random, MIN_VELOCITY, MAX_VELOCITY]
    refine ⟨⟨by nlinarith, by nlinarith⟩, ⟨by nlinarith, by nlinarith⟩,
      ⟨by nlinarith, by nlinarith⟩, ⟨by nlinarith, by nlinarith⟩⟩
  · intro w h i
    simp [initialGraphicsState]

/-- Witness for `seeded_buffer_count_and_ranges` at the constant random
stream `1/2`. -/
theorem seeded_buffer_count_and_ranges_witness :
    (∀ i : ℕ, 0 ≤ (fun _ : ℕ => (1 : ℚ) / 2) i ∧
        (fun _ : ℕ => (1 : ℚ) / 2) i < 1) ∧
    (generate_particles PARTICLE_COUNT (-1, -1) (1, 1)
        (fun _ => (1 : ℚ) / 2)).length = PARTICLE_COUNT_SQRT ^ 2 ∧
    PARTICLE_COUNT_SQRT ^ 2 = 90000 ∧
    (∀ p ∈ generate_particles PARTICLE_COUNT (-1, -1) (1, 1)
        (fun _ => (1 : ℚ) / 2),
      (-1 ≤ p.position.1 ∧ p.position.1 ≤ 1) ∧
      (-1 ≤ p.position.2 ∧ p.position.2 ≤ 1) ∧
      (-(1 / 10) ≤ p.velocity.1 ∧ p.velocity.1 ≤ 1 / 10) ∧
      (-(1 / 10) ≤ p.velocity.2 ∧ p.velocity.2 ≤ 1 / 10)) ∧
    (∀ w h i,
      (initialGraphicsState w h (fun _ => (1 : ℚ) / 2)).newData i = 0) := by
  refine ⟨fun i => by norm_num, ?_⟩
  exact seeded_buffer_count_and_ranges (fun _ => (1 : ℚ) / 2)
    (fun i => by norm_num)

/-- Helper: `specBinning` produces one layer per pass. -/
theorem specBinning_length (select : Cell → List ℕ → Option ℕ)
    (cell : ℕ → Cell) (pop n : ℕ) :
    (specBinning select cell pop n).length = n := by
  induction n with
  | zero => rfl
  | succ m ih => simp [specBinning, ih]

/-- Helper: layer `i` of the store after any `n > i` passes is the layer
produced by pass `i` from the layers of passes `0..i-1`. -/
theorem specBinning_get (select : Cell → List ℕ → Option ℕ)
    (cell : ℕ → Cell) (pop : ℕ) {i n : ℕ} (h : i < n) :
    (specBinning select cell pop n).get? i =
      some (binLayerAt select cell pop i) := by
  induction n with
  | zero => omega
  | succ m ih =>
      show (specBinning select cell pop m ++
        [specBinPass select cell pop (specBinning select cell pop m)]).get? i
          = _
      rcases Nat.lt_or_ge i m with him | him
      · rw [List.get?_append]
        · exact ih him
        · rw [specBinning_length]; exact him
      · have hieq : i = m := by omega
        subst hieq
        have hlen := specBinning_length select cell pop i
        rw [List.get?_append_right (le_of_eq hlen)]
        simp [hlen, binLayerAt]

/-- Helper: an occupant of layer `i` is a population index whose cell is the
slot's cell and which no earlier pass had claimed. -/
theorem binLayerAt_occupant (select : Cell → List ℕ → Option ℕ)
    (cell : ℕ → Cell) (pop : ℕ)
    (hsel : ∀ c l x, select c l = some x → x ∈ l)
    {i : ℕ} {c : Cell} {p : ℕ}
    (h : binLayerAt select cell pop i c = some p) :
    p < pop ∧ cell p = c ∧
      ((specBinning select cell pop i).any fun layer =>
        decide (layer c = some p)) = false := by
  have hmem := hsel c _ p h
  simp only [candidateParticles, List.mem_filter, List.mem_range,
    Bool.and_eq_true, decide_eq_true_eq, Bool.not_eq_true'] at hmem
  exact ⟨hmem.1, hmem.2.1, hmem.2.2⟩

/-- Helper: a particle placed by pass `j` is visible as claimed to every
later pass `i > j`. -/
theorem claimed_in_later_passes (select : Cell → List ℕ → Option ℕ)
    (cell : ℕ → Cell) (pop : ℕ) {j i : ℕ} (h : j < i) {c : Cell} {p : ℕ}
    (hj : binLayerAt select cell pop j c = some p) :
    ((specBinning select cell pop i).any fun layer =>
      decide (layer c = some p)) = true := by
  have hmem : binLayerAt select cell pop j ∈ specBinning select cell pop i :=
    List.get?_mem (specBinning_get select cell pop h)
  simp only [List.any_eq_true, decide_eq_true_eq]
  exact ⟨binLayerAt select cell pop j, hmem, hj⟩

/-- C4 (spec-modelled, the partition shader sources are not in the tree):
after the `BIN_CAPACITY` partitioning passes complete, each occupied slot of
the Bin Store identifies exactly one particle of the population, the
particle lies in the cell the slot belongs to, and no particle index
appears in more than one `(cell, slot)` pair — for any selection rule that
only picks from the still-unclaimed candidates of the cell. -/
theorem bin_store_no_duplication (select : Cell → List ℕ → Option ℕ)
    (cell : ℕ → Cell) (pop : ℕ)
    (hsel : ∀ c l x, select c l = some x → x ∈ l)
    (i j : ℕ) (hi : i < BIN_CAPACITY) (hj : j < BIN_CAPACITY)
    (c c' : Cell) (p : ℕ)
    (hip : binLayerAt select cell pop i c = some p)
    (hjp : binLayerAt select cell pop j c' = some p) :
    i = j ∧ c = c' ∧ cell p = c ∧ p < pop ∧
      (specBinning select cell pop BIN_CAPACITY).get? i =
        some (binLayerAt select cell pop i) := by
  obtain ⟨hpi, hci, hanyi⟩ := binLayerAt_occupant select cell pop hsel hip
  obtain ⟨hpj, hcj, hanyj⟩ := binLayerAt_occupant select cell pop hsel hjp
  have hcc : c = c' := by rw [← hci, ← hcj]
  have hij : i = j := by
    rcases lt_trichotomy i j with hlt | heq | hgt
    · exfalso
      have := claimed_in_later_passes select cell pop hlt
        (c := c') (p := p) (hcc ▸ hip)
      rw [this] at hanyj
      cases hanyj
    · exact heq
    · exfalso
      have := claimed_in_later_passes select cell pop hgt
        (c := c) (p := p) (hcc ▸ hjp)
      rw [this] at hanyi
      cases hanyi
  exact ⟨hij, hcc, hci, hpi, specBinning_get select cell pop hi⟩

/-- A concrete selection rule (first remaining candidate) for the witness. -/
def headSelect : Cell → List ℕ → Option ℕ := fun _ l => l.head?

/-- A concrete cell function for the witness. -/
def constCell : ℕ → Cell := fun _ => (0, 0)

/-- Witness for `bin_store_no_duplication`: a one-particle population placed
by the first-candidate rule. -/
theorem bin_store_no_duplication_witness :
    (∀ c l x, headSelect c l = some x → x ∈ l) ∧
    0 < BIN_CAPACITY ∧
    binLayerAt headSelect constCell 1 0 (0, 0) = some 0 ∧
    (0 = 0 ∧ ((0, 0) : Cell) = (0, 0) ∧ constCell 0 = (0, 0) ∧ 0 < 1 ∧
      (specBinning headSelect constCell 1 BIN_CAPACITY).get? 0 =
        some (binLayerAt headSelect constCell 1 0)) := by
  have hsel : ∀ c l x, headSelect c l = some x → x ∈ l := by
    intro c l x h
    cases l with
    | nil => cases h
    | cons a t =>
        simp only [headSelect, List.head?] at h
        rw [Option.some_inj.mp h]
        exact List.mem_cons_self x t
  have hip : binLayerAt headSelect constCell 1 0 (0, 0) = some 0 := by decide
  exact ⟨hsel, by decide, hip,
    bin_store_no_duplication headSelect constCell 1 hsel 0 0
      (by decide) (by decide) (0, 0) (0, 0) 0 hip hip⟩

end ParticleSystem
